import Mathlib

/-!
# Verification of the resume-validator core (`openai_analyzer.py`)

Shallow embedding of the score-calibration, skill-validation, name-extraction
and batch-ranking logic of `OpenAIResumeAnalyzer` (methods `analyze_resume`,
`extract_candidate_name_from_text`, `batch_analyze_resumes`).

Strings are embedded as `List Char`; Python string operations (`lower`,
`strip`, `split`, `upper`, `in`, `isalpha`, `isupper`) are embedded at ASCII
granularity, which covers every string the program's policies compare.
Scores and ratios are embedded as `ℚ` (the Python code manipulates floats with
exact decimal constants and small integer arithmetic).
-/

namespace ResumeValidator

/-- Strings of the embedded program: lists of characters. -/
abbrev Str := List Char

/-- Python `str.lower()` at ASCII granularity. -/
def pyLower (s : Str) : Str := s.map Char.toLower

/-- Python `str.upper()` at ASCII granularity. -/
def pyUpper (s : Str) : Str := s.map Char.toUpper

/-- Python whitespace characters recognised by `str.strip()` / `str.split()`. -/
def pyIsSpace (c : Char) : Bool :=
  c == ' ' || c == '\t' || c == '\n' || c == '\r' || c == '\x0b' || c == '\x0c'

/-- Python `str.strip()`: drop leading and trailing whitespace. -/
def pyStrip (s : Str) : Str :=
  ((s.dropWhile pyIsSpace).reverse.dropWhile pyIsSpace).reverse

/-- `needle` is a leading segment of `hay`. -/
def leadsStr : Str → Str → Bool
  | [], _ => true
  | _ :: _, [] => false
  | a :: as, b :: bs => a == b && leadsStr as bs

/-- Python `needle in hay`: contiguous-substring containment. -/
def containsSub (needle : Str) : Str → Bool
  | [] => leadsStr needle []
  | c :: t => leadsStr needle (c :: t) || containsSub needle t

/-- One claimed skill matches one required skill
(`analyze_resume`, lines 280–293): after `lower().strip()` on both sides,
exact equality, or either string contains the other as a substring. -/
def skillMatch (skill reqSkill : Str) : Bool :=
  let sl := pyStrip (pyLower skill)
  let rl := pyStrip (pyLower reqSkill)
  sl == rl || containsSub sl rl || containsSub rl sl

/-- `validated_matching_skills` (`analyze_resume`, lines 275–308): with a
non-empty required list, keep each claimed skill (in claimed order, original
form, no deduplication) that matches some required skill; with an empty
required list the claimed list passes through unfiltered. -/
def validatedSkills (claimed required : List Str) : List Str :=
  if required.isEmpty then claimed
  else claimed.filter (fun s => required.any (fun r => skillMatch s r))

/-- `skill_match_ratio` (`analyze_resume`, lines 302–309): validated count
over required count, or `0` when the required list is empty. -/
def skillMatchRatio (claimed required : List Str) : ℚ :=
  if required.isEmpty then 0
  else ((validatedSkills claimed required).length : ℚ) / (required.length : ℚ)

/-- Band selection (`analyze_resume`, lines 316–333): `(min_score,
max_allowed_score)` from the skill-match ratio, inclusive lower bounds
evaluated high to low. -/
def band (ratio : ℚ) : ℚ × ℚ :=
  if ratio ≥ 0.9 then (85, 100)
  else if ratio ≥ 0.8 then (75, 90)
  else if ratio ≥ 0.6 then (60, 80)
  else if ratio ≥ 0.4 then (45, 65)
  else if ratio ≥ 0.2 then (15, 45)
  else (5, 25)

/-- `validated_score` (`analyze_resume`, lines 307–355).  With required
skills present: Outstanding boost for ratio ≥ 0.9, Very-Poor bias for
ratio < 0.2, cap at `max_allowed_score`, boost to `min_score` only when
ratio ≥ 0.8, else pass-through.  Without required skills the raw score is
returned unchanged (line 310). -/
def calibrate (rawScore ratio : ℚ) (hasRequirements : Bool) : ℚ :=
  if hasRequirements then
    let minScore := (band ratio).1
    let maxAllowed := (band ratio).2
    if ratio ≥ 0.9 then min (85 + (ratio - 0.9) * 150) 100
    else if ratio < 0.2 then min rawScore (minScore + (maxAllowed - minScore) * 0.3)
    else if rawScore > maxAllowed then maxAllowed
    else if rawScore < minScore ∧ ratio ≥ 0.8 then minScore
    else rawScore
  else rawScore

/-! ## Name extraction (`extract_candidate_name_from_text`, lines 382–423) -/

/-- Python `resume_text.split('\n')`: split on newlines, keeping empty
pieces. -/
def splitNL : Str → List Str
  | [] => [[]]
  | c :: t =>
    if c = '\n' then [] :: splitNL t
    else
      match splitNL t with
      | [] => [[c]]
      | w :: ws => (c :: w) :: ws

/-- Accumulator worker for Python `str.split()` (no separator): split on runs
of whitespace, discarding empty pieces. -/
def splitWSAux : Str → Str → List Str
  | acc, [] => if acc.isEmpty then [] else [acc.reverse]
  | acc, c :: t =>
    if pyIsSpace c then
      if acc.isEmpty then splitWSAux [] t else acc.reverse :: splitWSAux [] t
    else splitWSAux (c :: acc) t

/-- Python `line.split()`. -/
def pySplitWS (s : Str) : List Str := splitWSAux [] s

/-- Python `str.isalpha()` at ASCII granularity: non-empty and all
alphabetic. -/
def pyIsAlphaStr (w : Str) : Bool := !w.isEmpty && w.all Char.isAlpha

/-- Python `str.isupper()` at ASCII granularity: at least one cased character
and no lower-case character. -/
def pyIsUpperStr (w : Str) : Bool := w.any Char.isAlpha && !(w.any Char.isLower)

/-- Word acceptance (line 403): the word with periods and commas removed is
alphabetic, or the word is fully upper-case. -/
def wordOK (w : Str) : Bool :=
  pyIsAlphaStr (w.filter fun c => !(c == '.') && !(c == ',')) || pyIsUpperStr w

/-- `' '.join(words)`. -/
def joinW : List Str → Str
  | [] => []
  | [w] => w
  | w :: x :: ws => w ++ ' ' :: joinW (x :: ws)

/-- Denylist of resume-header and technology tokens (lines 409–413). -/
def nameDenylist : List Str :=
  ["RESUME".data, "CV".data, "CURRICULUM".data, "PROFILE".data,
   "OBJECTIVE".data, "SUMMARY".data, "EXPERIENCE".data, "EDUCATION".data,
   "SKILLS".data, "PROFESSIONAL".data, "PYTHON".data, "JAVA".data,
   "C++".data, "JAVASCRIPT".data, "SQL".data, "AWS".data, "DOCKER".data]

/-- Separator characters whose presence marks a list rather than a name
(line 414). -/
def sepChars : List Char := [',', ':', ';', '|']

/-- One loop iteration of `extract_candidate_name_from_text` (lines
397–416): `some name` when the line passes every acceptance condition. -/
def lineName (rawLine : Str) : Option Str :=
  let line := pyStrip rawLine
  if line ≠ [] ∧ 2 < line.length then
    let words := pySplitWS line
    if 2 ≤ words.length ∧ (words.take 3).all wordOK = true ∧
        (joinW (words.take 3)).length < 50 then
      let lineUpper := pyUpper line
      if (∀ d ∈ nameDenylist, containsSub d lineUpper = false) ∧
          (∀ c ∈ sepChars, line.contains c = false) ∧ words.length ≤ 4 then
        some (joinW (words.take 3))
      else none
    else none
  else none

/-- `os.path.basename` (POSIX): the suffix after the last `/`. -/
def baseName (p : Str) : Str := (p.reverse.takeWhile fun c => !(c == '/')).reverse

/-- Index of the last `.` in a string, if any. -/
def lastDotIdx (b : Str) : Option Nat :=
  match b.reverse.findIdx? (fun c => c == '.') with
  | none => none
  | some j => some (b.length - 1 - j)

/-- Root part of `os.path.splitext` on a basename: cut at the last dot
unless every character before it is also a dot (CPython `genericpath`
rule, so `.bashrc` keeps its dot). -/
def splitExtRoot (b : Str) : Str :=
  match lastDotIdx b with
  | none => b
  | some d => if (b.take d).any (fun c => !(c == '.')) then b.take d else b

/-- `os.path.splitext(os.path.basename(p))[0]` (lines 419 and 423):
the fallback identifier with path and extension stripped. -/
def stripPathExt (p : Str) : Str := splitExtRoot (baseName p)

/-- `extract_candidate_name_from_text`: first 10 lines are scanned in order;
the first qualifying line yields its first three words joined by single
spaces; otherwise the file path with path and extension stripped. -/
def extractName (resumeText filePath : Str) : Str :=
  match ((splitNL resumeText).take 10).findSome? lineName with
  | some n => n
  | none => stripPathExt filePath

/-! ## Final-name reconciliation (`batch_analyze_resumes`, lines 450–469) -/

/-- Default candidate name, produced both by a missing `candidate_name`
field and by the error path of `analyze_resume` (lines 358 and 372). -/
def unknownCandidate : Str := "Unknown Candidate".data

/-- The anti-caching sentinel checked on line 461. -/
def cacheSentinel : Str := "AVINASH".data

/-- Final-name precedence (lines 455–466): the reliable text extraction if
non-empty and different from the filename base; else the judgment's claimed
name if non-empty, not the `Unknown Candidate` placeholder, longer than 2
characters after trimming, and not containing `AVINASH` upper-cased; else
the filename base. -/
def finalName (aiName reliableName filenameBase : Str) : Str :=
  if reliableName ≠ [] ∧ reliableName ≠ filenameBase then reliableName
  else if aiName ≠ [] ∧ aiName ≠ unknownCandidate ∧ 2 < (pyStrip aiName).length ∧
      containsSub cacheSentinel (pyUpper aiName) = false then aiName
  else filenameBase

/-- Modelled from the claim's words (C9), for comparison with `finalName`:
precedence (a) the text-extraction result if it differs from the fallback
identifier, else (b) the claimed name if non-empty, longer than 2 characters
after trimming and not matching the anti-caching sentinel, else (c) the
fallback identifier. -/
def finalNameSpecLiteral (aiName reliableName filenameBase : Str) : Str :=
  if reliableName ≠ filenameBase then reliableName
  else if aiName ≠ [] ∧ 2 < (pyStrip aiName).length ∧
      containsSub cacheSentinel (pyUpper aiName) = false then aiName
  else filenameBase

/-- The claim's precedence amended with the placeholder exclusion: branch (b)
additionally requires the claimed name not to be the `Unknown Candidate`
placeholder. -/
def finalNameSpecAmended (aiName reliableName filenameBase : Str) : Str :=
  if reliableName ≠ filenameBase then reliableName
  else if aiName ≠ [] ∧ aiName ≠ unknownCandidate ∧ 2 < (pyStrip aiName).length ∧
      containsSub cacheSentinel (pyUpper aiName) = false then aiName
  else filenameBase

/-! ## Batch analysis (`analyze_resume` result assembly and
`batch_analyze_resumes`, lines 357–380 and 425–476) -/

/-- The fields of the external judgment that the core transforms: claimed
name, claimed score, claimed matching skills.  The free-text fields are
opaque pass-through and are not modelled. -/
structure RawJudgment where
  claimedName : Str
  rawScore : ℚ
  claimedSkills : List Str

/-- The transformed fields of a `ResumeAnalysis` record. -/
structure Analysis where
  candidateName : Str
  matchingScore : ℚ
  matchingSkills : List Str

/-- `analyze_resume` post-processing: `none` models the exception path
(lines 368–380), which yields the default record with score 0 and empty
skill list; a parsed judgment is validated and calibrated (lines 264–366). -/
def analyzeResume (judgment : Option RawJudgment) (requiredSkills : List Str) :
    Analysis :=
  match judgment with
  | none =>
    { candidateName := unknownCandidate, matchingScore := 0, matchingSkills := [] }
  | some j =>
    { candidateName := j.claimedName,
      matchingScore := calibrate j.rawScore
        (skillMatchRatio j.claimedSkills requiredSkills) (!requiredSkills.isEmpty),
      matchingSkills := validatedSkills j.claimedSkills requiredSkills }

/-- One loop iteration of `batch_analyze_resumes` (lines 438–471): analyze,
then overwrite the candidate name with the reconciled final name. -/
def processResume (filePath resumeText : Str) (judgment : Option RawJudgment)
    (requiredSkills : List Str) : Analysis :=
  let analysis := analyzeResume judgment requiredSkills
  let reliableName := extractName resumeText filePath
  let filenameBase := stripPathExt filePath
  { analysis with
      candidateName := finalName analysis.candidateName reliableName filenameBase }

/-- Comparison used by the final sort (line 474): `a` may precede `b` iff
`b`'s score is at most `a`'s (descending order; ties keep input order under a
stable sort, as Python's `list.sort` guarantees). -/
def scoreDescLE (a b : Analysis) : Bool := decide (b.matchingScore ≤ a.matchingScore)

/-- `batch_analyze_resumes`: one record per input `(file_path, resume_text,
judgment-or-failure)` triple, then a stable sort by matching score
descending. -/
def batchAnalyzeResumes (resumes : List (Str × Str × Option RawJudgment))
    (requiredSkills : List Str) : List Analysis :=
  (resumes.map fun r => processResume r.1 r.2.1 r.2.2 requiredSkills).mergeSort
    scoreDescLE

/-! ## Non-emptiness of extracted names -/

lemma splitWSAux_ne_nil : ∀ (l acc w : Str), w ∈ splitWSAux acc l → w ≠ []
  | [], acc, w => by
    unfold splitWSAux
    split_ifs with h
    · intro hw; exact absurd hw (List.not_mem_nil w)
    · intro hw hn
      rw [List.mem_singleton] at hw
      rw [hw, List.reverse_eq_nil_iff] at hn
      exact h (by simp [hn])
  | c :: t, acc, w => by
    unfold splitWSAux
    split_ifs with h1 h2
    · exact fun hw => splitWSAux_ne_nil t [] w hw
    · intro hw
      rw [List.mem_cons] at hw
      rcases hw with hw | hw
      · intro hn
        rw [hw, List.reverse_eq_nil_iff] at hn
        exact h2 (by simp [hn])
      · exact splitWSAux_ne_nil t [] w hw
    · exact fun hw => splitWSAux_ne_nil t (c :: acc) w hw

lemma joinW_cons_ne_nil (w : Str) (ws : List Str) (h : w ≠ []) :
    joinW (w :: ws) ≠ [] := by
  cases ws with
  | nil => exact h
  | cons x xs =>
    unfold joinW
    intro heq
    exact h (List.append_eq_nil.mp heq).1

/-- A qualifying line always yields a non-empty name: the first word of the
split is non-empty and survives the join. -/
lemma lineName_ne_nil (l n : Str) (h : lineName l = some n) : n ≠ [] := by
  simp only [lineName] at h
  split_ifs at h with h1 h2 h3
  rw [Option.some_inj] at h
  rcases hw : pySplitWS (pyStrip l) with _ | ⟨w, ws⟩
  · rw [hw] at h2
    simp at h2
  · have hwne : w ≠ [] := splitWSAux_ne_nil (pyStrip l) [] w
      (by rw [pySplitWS] at hw; rw [hw]; exact List.mem_cons_self w ws)
    rw [hw] at h
    rw [← h]
    simpa using joinW_cons_ne_nil w (ws.take 2) hwne

/-- If the stripped fallback is non-empty the extraction result is non-empty. -/
lemma extractName_ne_nil (t p : Str) (h : stripPathExt p ≠ []) :
    extractName t p ≠ [] := by
  unfold extractName
  rcases hfs : ((splitNL t).take 10).findSome? lineName with _ | n
  · exact h
  · obtain ⟨a, -, ha⟩ := List.exists_of_findSome?_eq_some hfs
    exact lineName_ne_nil a n ha

/-- An extraction result that differs from the stripped fallback came from a
qualifying line, hence is non-empty. -/
lemma extractName_ne_nil_of_ne (t p : Str) (h : extractName t p ≠ stripPathExt p) :
    extractName t p ≠ [] := by
  unfold extractName at *
  rcases hfs : ((splitNL t).take 10).findSome? lineName with _ | n
  · rw [hfs] at h
    exact absurd rfl h
  · obtain ⟨a, -, ha⟩ := List.exists_of_findSome?_eq_some hfs
    exact lineName_ne_nil a n ha

/-! ## Helper lemmas about `band` and `calibrate` -/

lemma band_fst_nonneg (ratio : ℚ) : 0 ≤ (band ratio).1 := by
  unfold band; split_ifs <;> norm_num

lemma band_fst_le_100 (ratio : ℚ) : (band ratio).1 ≤ 100 := by
  unfold band; split_ifs <;> norm_num

lemma band_snd_le_100 (ratio : ℚ) : (band ratio).2 ≤ 100 := by
  unfold band; split_ifs <;> norm_num

lemma band_snd_nonneg (ratio : ℚ) : 0 ≤ (band ratio).2 := by
  unfold band; split_ifs <;> norm_num

lemma band_biased_nonneg (ratio : ℚ) :
    0 ≤ (band ratio).1 + ((band ratio).2 - (band ratio).1) * 0.3 := by
  unfold band; split_ifs <;> norm_num

lemma band_biased_le_100 (ratio : ℚ) :
    (band ratio).1 + ((band ratio).2 - (band ratio).1) * 0.3 ≤ 100 := by
  unfold band; split_ifs <;> norm_num

lemma band_of_verypoor {ratio : ℚ} (h : ratio < 0.2) : band ratio = (5, 25) := by
  unfold band
  rw [if_neg (by linarith), if_neg (by linarith), if_neg (by linarith),
    if_neg (by linarith), if_neg (by linarith)]

lemma band_of_excellent {ratio : ℚ} (h8 : 0.8 ≤ ratio) (h9 : ratio < 0.9) :
    band ratio = (75, 90) := by
  unfold band
  rw [if_neg (by linarith), if_pos h8]

/-- Branch equation: Outstanding boost (ratio ≥ 0.9) ignores the raw score. -/
lemma calibrate_outstanding (raw : ℚ) {ratio : ℚ} (h : ratio ≥ 0.9) :
    calibrate raw ratio true = min (85 + (ratio - 0.9) * 150) 100 := by
  unfold calibrate
  rw [if_pos rfl, if_pos h]

/-- Branch equation: Very-Poor penalty (ratio < 0.2) biases toward
`5 + (25 − 5) × 0.3 = 11`. -/
lemma calibrate_verypoor (raw : ℚ) {ratio : ℚ} (h : ratio < 0.2) :
    calibrate raw ratio true = min raw 11 := by
  unfold calibrate
  rw [if_pos rfl, if_neg (by linarith), if_pos h, band_of_verypoor h]
  norm_num

/-- Branch equation: for 0.2 ≤ ratio < 0.8 (Good, Average, Poor bands) the
result is exactly `min raw max_allowed`; the `min_score` floor is never
applied because the boost branch requires ratio ≥ 0.8. -/
lemma calibrate_mid (raw : ℚ) {ratio : ℚ} (h2 : 0.2 ≤ ratio) (h8 : ratio < 0.8) :
    calibrate raw ratio true = min raw (band ratio).2 := by
  unfold calibrate
  rw [if_pos rfl, if_neg (by linarith), if_neg (by linarith)]
  split_ifs with hcap hboost
  · exact (min_eq_right (le_of_lt hcap)).symm
  · exact absurd hboost.2 (by linarith)
  · exact (min_eq_left (not_lt.mp hcap)).symm

/-- Branch analysis: Excellent band (0.8 ≤ ratio < 0.9) always lands in
[75, 90]. -/
lemma calibrate_excellent (raw : ℚ) {ratio : ℚ} (h8 : 0.8 ≤ ratio) (h9 : ratio < 0.9) :
    75 ≤ calibrate raw ratio true ∧ calibrate raw ratio true ≤ 90 := by
  unfold calibrate
  rw [if_pos rfl, if_neg (by linarith), if_neg (by linarith), band_of_excellent h8 h9]
  split_ifs with hcap hboost
  · norm_num
  · norm_num
  · rw [not_and_or] at hboost
    rcases hboost with hb | hb
    · exact ⟨not_lt.mp hb, not_lt.mp hcap⟩
    · exact absurd h8 hb

/-- With required skills present the calibrated score never exceeds 100. -/
lemma calibrate_le_100 (raw ratio : ℚ) : calibrate raw ratio true ≤ 100 := by
  unfold calibrate
  rw [if_pos rfl]
  simp only []
  split_ifs with h1 h2 h3 h4
  · exact le_trans (min_le_right _ _) (by norm_num)
  · exact le_trans (min_le_right _ _) (band_biased_le_100 ratio)
  · exact band_snd_le_100 ratio
  · exact band_fst_le_100 ratio
  · exact le_trans (not_lt.mp h3) (band_snd_le_100 ratio)

/-- With required skills present and a nonnegative raw score the calibrated
score is nonnegative. -/
lemma calibrate_nonneg {raw : ℚ} (ratio : ℚ) (hraw : 0 ≤ raw) :
    0 ≤ calibrate raw ratio true := by
  unfold calibrate
  rw [if_pos rfl]
  simp only []
  split_ifs with h1 h2 h3 h4
  · exact le_min (by linarith) (by norm_num)
  · exact le_min hraw (band_biased_nonneg ratio)
  · exact band_snd_nonneg ratio
  · exact band_fst_nonneg ratio
  · exact hraw

/-- With no required skills the raw score passes through unchanged:
line 310 performs no clamping. -/
lemma calibrate_no_requirements (raw ratio : ℚ) : calibrate raw ratio false = raw := by
  unfold calibrate
  rw [if_neg (by simp)]

/-! ## Claims about the score calibration -/

/-- C1 (counterexample): the final calibrated score is NOT always in [0,100].
With no required skills, raw score 150 is returned as 150 (line 310 does not
clamp); with required skills, ratio 0.5 and raw score −10, the pass-through
branch returns −10. -/
theorem C1_counterexample :
    ¬ (0 ≤ calibrate 150 0 false ∧ calibrate 150 0 false ≤ 100) ∧
    ¬ (0 ≤ calibrate (-10) 0.5 true ∧ calibrate (-10) 0.5 true ≤ 100) := by
  constructor
  · rw [calibrate_no_requirements]; norm_num
  · rw [calibrate_mid (-10) (by norm_num) (by norm_num)]
    unfold band
    norm_num

/-- C1 (amended): when the required-skill list is non-empty and the raw score
is nonnegative, the calibrated score satisfies 0 ≤ score ≤ 100. -/
theorem C1_amended_bounds (raw ratio : ℚ) (hraw : 0 ≤ raw) :
    0 ≤ calibrate raw ratio true ∧ calibrate raw ratio true ≤ 100 :=
  ⟨calibrate_nonneg ratio hraw, calibrate_le_100 raw ratio⟩

/-- C1 witness: the amended bound at raw score 42, ratio 1/2. -/
theorem C1_witness :
    0 ≤ calibrate 42 (1/2) true ∧ calibrate 42 (1/2) true ≤ 100 :=
  C1_amended_bounds 42 (1/2) (by norm_num)

/-- C2 (counterexample): with an empty required-skill list the code does NOT
clamp: raw score 150 yields 150, not `clamp(150, 0, 100) = 100` (and raw
score −5 yields −5, not 0). -/
theorem C2_counterexample :
    calibrate 150 0 false ≠ min (max 150 0) 100 ∧
    calibrate (-5) 0 false ≠ min (max (-5) 0) 100 := by
  rw [calibrate_no_requirements, calibrate_no_requirements]
  norm_num

/-- C2 (amended): with an empty required-skill list (has_requirements false)
no banding is applied and the raw score is returned unchanged — values
outside [0,100] are NOT clamped. -/
theorem C2_amended_passthrough (raw ratio : ℚ) : calibrate raw ratio false = raw :=
  calibrate_no_requirements raw ratio

/-- C3 (confirmed): for ratio ≥ 0.9 with required skills present the result
equals `min (85 + (ratio − 0.9) × 150) 100`; it is independent of the raw
score, non-decreasing in the ratio, and lies in [85,100]. -/
theorem C3_outstanding_boost (raw raw₂ ratio ratio₂ : ℚ)
    (h : ratio ≥ 0.9) (h₂ : ratio ≤ ratio₂) :
    calibrate raw ratio true = min (85 + (ratio - 0.9) * 150) 100 ∧
    calibrate raw ratio true = calibrate raw₂ ratio true ∧
    calibrate raw ratio true ≤ calibrate raw₂ ratio₂ true ∧
    85 ≤ calibrate raw ratio true ∧ calibrate raw ratio true ≤ 100 := by
  have e₁ := calibrate_outstanding raw h
  have e₂ := calibrate_outstanding raw₂ h
  have e₃ := calibrate_outstanding raw₂ (show ratio₂ ≥ 0.9 by linarith)
  refine ⟨e₁, e₁.trans e₂.symm, ?_, ?_, ?_⟩
  · rw [e₁, e₃]
    exact min_le_min (by linarith) le_rfl
  · rw [e₁]
    exact le_min (by linarith) (by norm_num)
  · rw [e₁]
    exact le_trans (min_le_right _ _) (by norm_num)

/-- C3 witness: ratio 0.95 ≤ ratio 1 with raw scores 10 and 70. -/
theorem C3_witness :
    calibrate 10 0.95 true = min (85 + ((0.95 : ℚ) - 0.9) * 150) 100 ∧
    calibrate 10 0.95 true = calibrate 70 0.95 true ∧
    calibrate 10 0.95 true ≤ calibrate 70 1 true ∧
    85 ≤ calibrate 10 0.95 true ∧ calibrate 10 0.95 true ≤ 100 :=
  C3_outstanding_boost 10 70 0.95 1 (by norm_num) (by norm_num)

/-- C6 (counterexample): a single calibration does NOT always land within the
selected band's [min_score, max_allowed]: at ratio 0.6 (Good band, [60, 80])
the pass-through branch returns raw score 30, which is below min_score 60 —
the boost-up branch fires only when ratio ≥ 0.8. -/
theorem C6_counterexample :
    calibrate 30 0.6 true = 30 ∧ ¬ (60 ≤ calibrate 30 0.6 true) := by
  rw [calibrate_mid 30 (by norm_num) (by norm_num)]
  unfold band
  norm_num

/-- C6 (amended): a single calibration lands in [85,100] for the Outstanding
band (ratio ≥ 0.9), at or below `min_score + 0.3 × (max_allowed − min_score)
= 11` for the Very-Poor band (ratio < 0.2), and within [min_score,
max_allowed] = [75,90] for the Excellent band (0.8 ≤ ratio < 0.9); for the
Good, Average and Poor bands (0.2 ≤ ratio < 0.8) the result is exactly
`min raw_score max_allowed`, which never exceeds max_allowed but falls below
min_score whenever the raw score does — the pass-through branch does not
re-establish the band's lower bound there. -/
theorem C6_amended_band_landing (raw ratio : ℚ) :
    (ratio ≥ 0.9 → 85 ≤ calibrate raw ratio true ∧ calibrate raw ratio true ≤ 100) ∧
    (ratio < 0.2 → calibrate raw ratio true ≤ 11) ∧
    (0.8 ≤ ratio → ratio < 0.9 →
      75 ≤ calibrate raw ratio true ∧ calibrate raw ratio true ≤ 90) ∧
    (0.2 ≤ ratio → ratio < 0.8 →
      calibrate raw ratio true = min raw (band ratio).2) := by
  refine ⟨fun h9 => ?_, fun h2 => ?_, fun h8 h9 => calibrate_excellent raw h8 h9,
    fun h2 h8 => calibrate_mid raw h2 h8⟩
  · rw [calibrate_outstanding raw h9]
    exact ⟨le_min (by linarith) (by norm_num), le_trans (min_le_right _ _) (by norm_num)⟩
  · rw [calibrate_verypoor raw h2]
    exact min_le_right _ _

/-- C6 witness: the four band cases discharged at ratios 0.95, 0.1, 0.85 and
0.5 with raw score 50. -/
theorem C6_witness :
    (85 ≤ calibrate 50 0.95 true ∧ calibrate 50 0.95 true ≤ 100) ∧
    calibrate 50 0.1 true ≤ 11 ∧
    (75 ≤ calibrate 50 0.85 true ∧ calibrate 50 0.85 true ≤ 90) ∧
    calibrate 50 0.5 true = min 50 (band 0.5).2 :=
  ⟨(C6_amended_band_landing 50 0.95).1 (by norm_num),
   (C6_amended_band_landing 50 0.1).2.1 (by norm_num),
   (C6_amended_band_landing 50 0.85).2.2.1 (by norm_num) (by norm_num),
   (C6_amended_band_landing 50 0.5).2.2.2 (by norm_num) (by norm_num)⟩

/-- C10 (confirmed): with a non-empty required-skill list the calibrated
score never exceeds 100 in any branch, and under the extra precondition
raw_score ≥ 0 it lies in [0,100]; with an empty required-skill list no bound
is enforced (the raw score is returned unchanged). -/
theorem C10_implicit_bounds (raw ratio : ℚ) :
    calibrate raw ratio true ≤ 100 ∧
    (0 ≤ raw → 0 ≤ calibrate raw ratio true ∧ calibrate raw ratio true ≤ 100) ∧
    calibrate raw ratio false = raw :=
  ⟨calibrate_le_100 raw ratio,
   fun hraw => ⟨calibrate_nonneg ratio hraw, calibrate_le_100 raw ratio⟩,
   calibrate_no_requirements raw ratio⟩

/-- C10 witness: the bounds at raw score 120, ratio 0.3, with the
nonnegativity precondition discharged. -/
theorem C10_witness :
    calibrate 120 0.3 true ≤ 100 ∧
    (0 ≤ calibrate 120 0.3 true ∧ calibrate 120 0.3 true ≤ 100) ∧
    calibrate 120 0.3 false = 120 :=
  ⟨(C10_implicit_bounds 120 0.3).1,
   (C10_implicit_bounds 120 0.3).2.1 (by norm_num),
   (C10_implicit_bounds 120 0.3).2.2⟩

/-! ## Claims about the skill validation -/

/-- C4 (confirmed): with a non-empty required list, a claimed skill is in the
validated list iff it came from the claimed list and, after lower-casing and
trimming both strings, it equals some required skill or one of the two
contains the other as a substring; the validated list is a sublist of the
claimed list (original claimed form, order of first appearance); an accepted
skill keeps its full multiplicity (no deduplication); the ratio is
validated-count over required-count; and
`validate(["Python","LangChain"], ["LangChain","OpenAI API"])` yields
`["LangChain"]` with ratio 0.5. -/
theorem C4_skill_validation (claimed required : List Str) (s : Str)
    (h : required ≠ []) :
    (s ∈ validatedSkills claimed required ↔
      s ∈ claimed ∧ ∃ r ∈ required,
        pyStrip (pyLower s) = pyStrip (pyLower r) ∨
        containsSub (pyStrip (pyLower s)) (pyStrip (pyLower r)) = true ∨
        containsSub (pyStrip (pyLower r)) (pyStrip (pyLower s)) = true) ∧
    List.Sublist (validatedSkills claimed required) claimed ∧
    ((∃ r ∈ required, skillMatch s r = true) →
      (validatedSkills claimed required).count s = claimed.count s) ∧
    skillMatchRatio claimed required =
      ((validatedSkills claimed required).length : ℚ) / (required.length : ℚ) ∧
    validatedSkills ["Python".data, "LangChain".data]
      ["LangChain".data, "OpenAI API".data] = ["LangChain".data] ∧
    skillMatchRatio ["Python".data, "LangChain".data]
      ["LangChain".data, "OpenAI API".data] = 1/2 := by
  have hval : validatedSkills ["Python".data, "LangChain".data]
      ["LangChain".data, "OpenAI API".data] = ["LangChain".data] := by decide
  refine ⟨?_, ?_, ?_, ?_, hval, ?_⟩
  · rw [validatedSkills, if_neg (by simp [h])]
    simp [List.mem_filter, List.any_eq_true, skillMatch, or_assoc]
  · rw [validatedSkills, if_neg (by simp [h])]
    exact List.filter_sublist _
  · intro hs
    rw [validatedSkills, if_neg (by simp [h])]
    refine List.count_filter ?_
    simpa [List.any_eq_true] using hs
  · rw [skillMatchRatio, if_neg (by simp [h])]
  · rw [skillMatchRatio, if_neg (by decide), hval]
    norm_num

/-- C4 witness: the characterisation instantiated at the spec's own example,
with the skill "LangChain" (accepted, exact match). -/
theorem C4_witness :
    ("LangChain".data ∈ validatedSkills ["Python".data, "LangChain".data]
        ["LangChain".data, "OpenAI API".data] ↔
      "LangChain".data ∈ ["Python".data, "LangChain".data] ∧
        ∃ r ∈ ["LangChain".data, "OpenAI API".data],
          pyStrip (pyLower "LangChain".data) = pyStrip (pyLower r) ∨
          containsSub (pyStrip (pyLower "LangChain".data)) (pyStrip (pyLower r)) = true ∨
          containsSub (pyStrip (pyLower r)) (pyStrip (pyLower "LangChain".data)) = true) ∧
    List.Sublist (validatedSkills ["Python".data, "LangChain".data]
      ["LangChain".data, "OpenAI API".data]) ["Python".data, "LangChain".data] ∧
    (validatedSkills ["Python".data, "LangChain".data]
      ["LangChain".data, "OpenAI API".data]).count "LangChain".data
      = (["Python".data, "LangChain".data]).count "LangChain".data ∧
    validatedSkills ["Python".data, "LangChain".data]
      ["LangChain".data, "OpenAI API".data] = ["LangChain".data] ∧
    skillMatchRatio ["Python".data, "LangChain".data]
      ["LangChain".data, "OpenAI API".data] = 1/2 := by
  have h := C4_skill_validation ["Python".data, "LangChain".data]
    ["LangChain".data, "OpenAI API".data] "LangChain".data (by decide)
  exact ⟨h.1, h.2.1, h.2.2.1 (by decide), h.2.2.2.2.1, h.2.2.2.2.2⟩

/-- C5 (counterexample): the match ratio is NOT always in [0,1]: the claimed
list is not deduplicated, so `validate(["Python","Python"], ["Python"])`
validates both copies and yields ratio 2. -/
theorem C5_counterexample :
    skillMatchRatio ["Python".data, "Python".data] ["Python".data] = 2 ∧
    ¬ (skillMatchRatio ["Python".data, "Python".data] ["Python".data] ≤ 1) := by
  have h : validatedSkills ["Python".data, "Python".data] ["Python".data]
      = ["Python".data, "Python".data] := by decide
  rw [skillMatchRatio, if_neg (by decide), h]
  norm_num

/-- C5 (amended): with a non-empty required list the match ratio is
nonnegative and at most |claimed| / |required|; in particular it lies in
[0,1] whenever the claimed list is no longer than the required list (it can
exceed 1 only when more claimed entries validate than there are required
skills, e.g. duplicated claimed skills). -/
theorem C5_ratio_bounds (claimed required : List Str) (h : required ≠ []) :
    0 ≤ skillMatchRatio claimed required ∧
    skillMatchRatio claimed required ≤ (claimed.length : ℚ) / (required.length : ℚ) ∧
    (claimed.length ≤ required.length → skillMatchRatio claimed required ≤ 1) := by
  have hn : 0 < (required.length : ℚ) := by
    exact_mod_cast List.length_pos.mpr h
  have hv : (validatedSkills claimed required).length ≤ claimed.length := by
    rw [validatedSkills, if_neg (by simp [h])]
    exact (List.filter_sublist _).length_le
  rw [skillMatchRatio, if_neg (by simp [h])]
  refine ⟨div_nonneg (by positivity) (le_of_lt hn), ?_, ?_⟩
  · rw [div_le_div_iff_of_pos_right hn]
    exact_mod_cast hv
  · intro hlen
    rw [div_le_one hn]
    exact_mod_cast le_trans hv hlen

/-- C5 witness: the amended bounds at the spec's example lists. -/
theorem C5_witness :
    0 ≤ skillMatchRatio ["Python".data, "LangChain".data]
        ["LangChain".data, "OpenAI API".data] ∧
    skillMatchRatio ["Python".data, "LangChain".data]
        ["LangChain".data, "OpenAI API".data] ≤ (2 : ℚ) / 2 ∧
    skillMatchRatio ["Python".data, "LangChain".data]
        ["LangChain".data, "OpenAI API".data] ≤ 1 := by
  have h := C5_ratio_bounds ["Python".data, "LangChain".data]
    ["LangChain".data, "OpenAI API".data] (by decide)
  exact ⟨h.1, h.2.1, h.2.2 (by decide)⟩

/-! ## Claims about name extraction and final-name precedence -/

/-- C8 (counterexample): name extraction does NOT always return a non-empty
string: with no qualifying line and an empty fallback identifier (whose
stripped form is empty) the empty string is returned. -/
theorem C8_counterexample : extractName [] [] = [] := by decide

/-- C8 (amended): name extraction never fails, and returns a non-empty string
provided the fallback identifier with path and extension stripped is
non-empty; when no line among the first 10 qualifies the stripped fallback is
returned; and
`extract("John A. Smith\nSenior Engineer\nSkills: Python, SQL", "resume_007")`
returns `"John A. Smith"`. -/
theorem C8_amended_extraction (text fallback : Str) (h : stripPathExt fallback ≠ []) :
    extractName text fallback ≠ [] ∧
    (((splitNL text).take 10).findSome? lineName = none →
      extractName text fallback = stripPathExt fallback) ∧
    extractName "John A. Smith\nSenior Engineer\nSkills: Python, SQL".data
      "resume_007".data = "John A. Smith".data := by
  refine ⟨extractName_ne_nil text fallback h, fun h2 => ?_, by decide⟩
  unfold extractName
  rw [h2]

/-- C8 witness: the amended statement discharged at the empty resume text
with fallback identifier `resume_007`. -/
theorem C8_witness :
    extractName [] "resume_007".data ≠ [] ∧
    extractName [] "resume_007".data = stripPathExt "resume_007".data ∧
    extractName "John A. Smith\nSenior Engineer\nSkills: Python, SQL".data
      "resume_007".data = "John A. Smith".data :=
  ⟨(C8_amended_extraction [] "resume_007".data (by decide)).1,
   (C8_amended_extraction [] "resume_007".data (by decide)).2.1 (by decide),
   (C8_amended_extraction [] "resume_007".data (by decide)).2.2⟩

/-- C9 (counterexample): the claim's precedence misses the `Unknown
Candidate` placeholder exclusion of line 459: when the text extraction equals
the fallback identifier and the judgment claims the name `Unknown Candidate`
(non-empty, longer than 2 characters after trimming, no anti-caching
sentinel), the claim's branch (b) keeps it, but the code falls through to the
fallback identifier. -/
theorem C9_counterexample :
    finalName unknownCandidate "resume_007".data "resume_007".data
      = "resume_007".data ∧
    finalNameSpecLiteral unknownCandidate "resume_007".data "resume_007".data
      = unknownCandidate ∧
    finalNameSpecLiteral unknownCandidate "resume_007".data "resume_007".data
      ≠ finalName unknownCandidate "resume_007".data "resume_007".data := by
  refine ⟨?_, ?_, ?_⟩ <;> decide

/-- C9 (amended): with the reliable name produced by the text extraction and
the fallback identifier being the path with directory and extension stripped,
the final name follows exactly this precedence: (a) the extraction result if
it differs from the fallback identifier, else (b) the judgment's claimed name
if non-empty, not the `Unknown Candidate` placeholder, longer than 2
characters after trimming, and not containing the anti-caching sentinel
upper-cased, else (c) the fallback identifier. -/
theorem C9_amended_precedence (text path aiName : Str) :
    finalName aiName (extractName text path) (stripPathExt path)
      = finalNameSpecAmended aiName (extractName text path) (stripPathExt path) := by
  by_cases hrf : extractName text path = stripPathExt path
  · rw [finalName, finalNameSpecAmended, if_neg (fun hc => hc.2 hrf),
      if_neg (not_not_intro hrf)]
  · have hne : extractName text path ≠ [] := extractName_ne_nil_of_ne text path hrf
    rw [finalName, finalNameSpecAmended, if_pos ⟨hne, hrf⟩, if_pos hrf]

/-! ## Claim about the batch pipeline -/

lemma scoreDescLE_trans (x y z : Analysis)
    (h1 : scoreDescLE x y) (h2 : scoreDescLE y z) : scoreDescLE x z := by
  simp only [scoreDescLE, decide_eq_true_eq] at *
  exact le_trans h2 h1

lemma scoreDescLE_total (x y : Analysis) : scoreDescLE x y || scoreDescLE y x := by
  simp only [scoreDescLE, Bool.or_eq_true, decide_eq_true_eq]
  exact le_total _ _

/-- C7 (confirmed): the batch analysis returns exactly one output record per
input record — a failed analysis (malformed judgment) still yields a record
with score 0 and an empty skill list rather than being dropped — and the
output is sorted by final score descending, with equal scores retaining
their original relative input order (stable sort). -/
theorem C7_batch_invariants (resumes : List (Str × Str × Option RawJudgment))
    (requiredSkills : List Str) (a b : Analysis) (path text : Str) :
    (batchAnalyzeResumes resumes requiredSkills).length = resumes.length ∧
    (batchAnalyzeResumes resumes requiredSkills).Pairwise
      (fun x y => y.matchingScore ≤ x.matchingScore) ∧
    (a.matchingScore = b.matchingScore →
      List.Sublist [a, b]
        (resumes.map fun r => processResume r.1 r.2.1 r.2.2 requiredSkills) →
      List.Sublist [a, b] (batchAnalyzeResumes resumes requiredSkills)) ∧
    (processResume path text none requiredSkills).matchingScore = 0 ∧
    (processResume path text none requiredSkills).matchingSkills = [] := by
  refine ⟨?_, ?_, ?_, rfl, rfl⟩
  · simp [batchAnalyzeResumes]
  · rw [batchAnalyzeResumes]
    refine List.Pairwise.imp ?_
      (List.sorted_mergeSort scoreDescLE_trans scoreDescLE_total
        (resumes.map fun r => processResume r.1 r.2.1 r.2.2 requiredSkills))
    intro x y h
    simpa [scoreDescLE] using h
  · intro heq hsub
    rw [batchAnalyzeResumes]
    exact List.pair_sublist_mergeSort scoreDescLE_trans scoreDescLE_total
      (by simp [scoreDescLE, heq]) hsub

/-- C7 witness: a two-candidate batch in which both judgments fail; both
records score 0 and the stable sort keeps their input order. -/
theorem C7_witness :
    List.Sublist
      [processResume "a.txt".data [] none [], processResume "b.txt".data [] none []]
      (batchAnalyzeResumes
        [("a.txt".data, [], none), ("b.txt".data, [], none)] []) :=
  (C7_batch_invariants [("a.txt".data, [], none), ("b.txt".data, [], none)] []
      (processResume "a.txt".data [] none []) (processResume "b.txt".data [] none [])
      [] []).2.2.1 rfl (List.Sublist.refl _)

end ResumeValidator
